import Mathlib

/-!
Verification of the route-detect evaluation script (practicum/evaluate.py).

The script has two modes: analyze (clone harness repositories, run tokei and
semgrep, persist one JSON record per repository/framework pair) and process
(read the persisted records, derive one metrics row per record, and emit CSV).

We shallowly embed the pieces of the script that the claims concern:
  - JSON values are modelled by an inductive type JVal; Python dictionary and
    list accesses become Except-valued operations that raise the corresponding
    Python exception (KeyError, TypeError, ...) on failure;
  - process_output is translated statement by statement;
  - the process-mode tail of main (filtering, sorting, the CSV header/row
    check) and the clone-ensuring prefix of analyze_repository are translated
    as functions of the relevant state (file lists, directory existence);
  - Python string primitives (substring membership, str.split("/"), slicing,
    lexicographic comparison) are modelled by structural functions on the
    character list underlying a String.
-/

/-- Python exception kinds that the translated code can raise. -/
inductive PyErr where
  | keyError
  | typeError
  | valueError
  | fileNotFoundError
  deriving DecidableEq, Repr

/-- JSON values as loaded by json.load: strings, integers, arrays, objects.
Objects are association lists with distinct keys (Python dicts cannot hold
duplicate keys); floating-point numbers do not occur in the fields the claims
inspect, so numbers are modelled as integers. -/
inductive JVal where
  | jstr : String → JVal
  | jint : Int → JVal
  | jarr : List JVal → JVal
  | jobj : List (String × JVal) → JVal

namespace JVal

/-- Python subscript data[k] on a JSON object: KeyError when the key is
absent, TypeError when the value is not a dict. -/
def getKey (v : JVal) (k : String) : Except PyErr JVal :=
  match v with
  | .jobj fs =>
    match fs.lookup k with
    | some x => .ok x
    | none => .error .keyError
  | _ => .error .typeError

/-- Python subscript data[k] where the key is itself a JSON value. JSON
object keys are always strings, so a non-string key is simply not found
(Python raises KeyError for a hashable key that is absent). -/
def getKeyV (v : JVal) (k : JVal) : Except PyErr JVal :=
  match k with
  | .jstr s => v.getKey s
  | _ => .error .keyError

/-- Python membership test k in v for a string k: key lookup on a dict,
substring test on a string, TypeError otherwise. -/
def hasKey (v : JVal) (k : String) : Except PyErr Bool :=
  match v with
  | .jobj fs => .ok (fs.any (fun p => k == p.1))
  | _ => .error .typeError

/-- View a JSON value as a string; Python raises TypeError where a string
operation is applied to a non-string. -/
def asStr : JVal → Except PyErr String
  | .jstr s => .ok s
  | _ => .error .typeError

/-- View a JSON value as an integer (used for the tokei line counts, which
Python sums; summing non-numbers raises TypeError). -/
def asInt : JVal → Except PyErr Int
  | .jint n => .ok n
  | _ => .error .typeError

/-- View a JSON value as an array for iteration. -/
def asArr : JVal → Except PyErr (List JVal)
  | .jarr xs => .ok xs
  | _ => .error .typeError

/-- Python set elements must be hashable: strings and integers are, lists
and dicts raise TypeError. Two hashable JSON values are equal in a set
exactly when the corresponding sum values are equal. -/
def hashable : JVal → Except PyErr (String ⊕ Int)
  | .jstr s => .ok (.inl s)
  | .jint n => .ok (.inr n)
  | _ => .error .typeError

/-- Python equality test between a JSON value and a string literal; values
of other types compare unequal to a string. -/
def eqStr (v : JVal) (s : String) : Bool :=
  match v with
  | .jstr t => t == s
  | _ => false

/-- Python str() of a scalar JSON value. The claims only apply it to strings
and integers; containers are not exercised. -/
def pyStr : JVal → String
  | .jstr s => s
  | .jint n => toString n
  | _ => ""

/-- Remove a key from a JSON object (used to build records with a missing
field). -/
def removeKey (v : JVal) (k : String) : JVal :=
  match v with
  | .jobj fs => .jobj (fs.filter (fun p => !(p.1 == k)))
  | v => v

end JVal

/-! ### Python string primitives over the underlying character list -/

/-- Whether the first character list is a prefix of the second. -/
def charPrefix : List Char → List Char → Bool
  | [], _ => true
  | _ :: _, [] => false
  | a :: as, b :: bs => a == b && charPrefix as bs

/-- Whether the first character list occurs contiguously inside the second. -/
def charInfix : List Char → List Char → Bool
  | needle, [] => needle.isEmpty
  | needle, c :: cs => charPrefix needle (c :: cs) || charInfix needle cs

/-- Python substring membership sub in s for strings. -/
def pyInStr (sub s : String) : Bool := charInfix sub.data s.data

/-- Python str.split("/"): splits on every slash, keeping empty pieces. -/
def splitSlash : List Char → List (List Char)
  | [] => [[]]
  | c :: cs =>
    if c = '/' then [] :: splitSlash cs
    else
      match splitSlash cs with
      | s :: rest => (c :: s) :: rest
      | [] => [[c]]

/-- Keep the suffix starting at the first slash (the path part after the
authority of a URL); empty when there is no slash. -/
def dropToSlash : List Char → List Char
  | [] => []
  | c :: cs => if c = '/' then c :: cs else dropToSlash cs

/-- Scan for the first occurrence of the scheme separator "://" and return
what follows it. -/
def afterSchemeSep : List Char → Option (List Char)
  | ':' :: '/' :: '/' :: rest => some rest
  | _ :: cs => afterSchemeSep cs
  | [] => none

/-- Modelled from urllib.parse: urlparse(url).path for absolute URLs of the
shape scheme://netloc/path without query, params or fragment (the only shape
the harness registry contains). A URL without a scheme separator is treated
as all path. -/
def urlparse_path (url : String) : String :=
  match afterSchemeSep url.data with
  | some rest => ⟨dropToSlash rest⟩
  | none => url

/-- Python lexicographic comparison s <= t on strings, by code point. -/
def charListLe : List Char → List Char → Bool
  | [], _ => true
  | _ :: _, [] => false
  | a :: as, b :: bs => if a < b then true else if b < a then false else charListLe as bs

/-! ### Constants of evaluate.py -/

def ROLE_METAVARIABLES : List String := ["$AUTHZ", "$...AUTHZ"]

def JS_TS_LANGUAGE : String := "JavaScript/TypeScript"

def SHORT_HASH_LEN : Nat := 7

/-- The CSV header list in main. -/
def headers : List String :=
  ["Repository", "Commit hash", "Framework", "Language", "Lines of code",
   "Semgrep runtime", "Route count", "Authn route count", "Unauthn route count",
   "Authz route count", "Unauthz route count", "Role count"]

/-! ### process_output -/

/-- get_org_repo: parse the URL, split its path on "/", and unpack exactly
three pieces (Python tuple unpacking raises ValueError otherwise). -/
def get_org_repo (url : String) : Except PyErr (String × String) :=
  match splitSlash (urlparse_path url).data with
  | [_, org, repo] => .ok (⟨org⟩, ⟨repo⟩)
  | _ => .error .valueError

/-- The inner generator of the language_loc sum: for one language, read
data["tokei"][language][key] for the three keys, left to right. Python's sum
accumulates left to right; over integers the grouping is immaterial. -/
def sumLocKeys (data : JVal) (language : JVal) : List String → Except PyErr Int
  | [] => .ok 0
  | key :: rest => do
    let tokei ← data.getKey "tokei"
    let entry ← tokei.getKeyV language
    let v ← (← entry.getKey key).asInt
    let tail ← sumLocKeys data language rest
    pure (v + tail)

/-- The outer generator of the language_loc sum, over the languages list. -/
def sumLoc (data : JVal) : List JVal → Except PyErr Int
  | [] => .ok 0
  | language :: rest => do
    let head ← sumLocKeys data language ["blanks", "code", "comments"]
    let tail ← sumLoc data rest
    pure (head + tail)

/-- One of the five category sums: sum(int(marker in result["check_id"]) for
result in results). -/
def sumMarker (marker : String) : List JVal → Except PyErr Int
  | [] => .ok 0
  | result :: rest => do
    let cid ← (result.getKey "check_id")
    let b ←
      match cid with
      | .jstr s => Except.ok (pyInStr marker s)
      | _ => Except.error PyErr.typeError
    let tail ← sumMarker marker rest
    pure ((if b then (1 : Int) else 0) + tail)

/-- The inner loop of the role-set comprehension: for one finding, iterate
the designated metavariables; when result["extra"]["metavars"] contains the
metavariable, collect its "abstract_content" as a set element. -/
def roleItemsOf (result : JVal) : List String → Except PyErr (List (String ⊕ Int))
  | [] => .ok []
  | metavariable :: rest => do
    let extra ← result.getKey "extra"
    let metavars ← extra.getKey "metavars"
    let hk ← metavars.hasKey metavariable
    let head ←
      if hk then do
        let binding ← metavars.getKey metavariable
        let content ← binding.getKey "abstract_content"
        let h ← content.hashable
        Except.ok [h]
      else Except.ok ([] : List (String ⊕ Int))
    let tail ← roleItemsOf result rest
    pure (head ++ tail)

/-- The outer loop of the role-set comprehension, over the findings. -/
def roleItems : List JVal → Except PyErr (List (String ⊕ Int))
  | [] => .ok []
  | result :: rest => do
    let items ← roleItemsOf result ROLE_METAVARIABLES
    let tail ← roleItems rest
    pure (items ++ tail)

/-- process_output, translated statement by statement from evaluate.py.
The source re-reads data["semgrep"]["results"] for each of the five counts
and the role comprehension; the dictionary is immutable during processing,
so it is read once here and the error order is unchanged (it is the first
access that raises when "semgrep" or "results" is missing, before any
count is formed). The row is the list of twelve entries built at the end;
the third, fourth and sixth entries hold data["framework"], data["language"]
and str(data["runtime"]) — strings in every record the analyzer writes. -/
def process_output (data : JVal) : Except PyErr (List String) := do
  let langV ← data.getKey "language"
  let languages : List JVal :=
    if langV.eqStr JS_TS_LANGUAGE then [.jstr "JavaScript", .jstr "TypeScript"]
    else [langV]
  let language_loc ← sumLoc data languages
  let results ← (← (← data.getKey "semgrep").getKey "results").asArr
  let route_count ← sumMarker "-route" results
  let authenticated_count ← sumMarker "-authenticated" results
  let unauthenticated_count ← sumMarker "-unauthenticated" results
  let authorized_count ← sumMarker "-authorized" results
  let unauthorized_count ← sumMarker "-unauthorized" results
  let roleVals ← roleItems results
  let role_count : Nat := roleVals.dedup.length
  let repository ← (← data.getKey "repository").asStr
  let orgRepo ← get_org_repo repository
  let name := orgRepo.1 ++ "/" ++ orgRepo.2
  let commit_hash := (← (← data.getKey "hash").asStr).take SHORT_HASH_LEN
  let framework ← data.getKey "framework"
  let runtime ← data.getKey "runtime"
  pure [name, commit_hash, framework.pyStr, langV.pyStr,
        toString language_loc, runtime.pyStr,
        toString route_count, toString authenticated_count,
        toString unauthenticated_count, toString authorized_count,
        toString unauthorized_count, toString role_count]

/-- pool.map(process_output, outputs): applies process_output to every file
in order; an exception raised in any worker propagates out of map, aborting
the whole batch. -/
def processBatch : List JVal → Except PyErr (List (List String))
  | [] => .ok []
  | d :: rest => do
    let row ← process_output d
    let tail ← processBatch rest
    pure (row :: tail)

/-! ### The process-mode tail of main: sort, header check, CSV emission -/

/-- The sort key lambda r: r[3] + r[2] — the language field concatenated
with the framework field. Rows produced by process_output always have
twelve fields, so the index accesses are in range. -/
def sort_key (r : List String) : String := r.getD 3 "" ++ r.getD 2 ""

/-- results.sort(key=lambda r: r[3] + r[2]): Python list.sort is a stable
sort, ascending in the key under lexicographic string comparison. -/
def sortResults (results : List (List String)) : List (List String) :=
  results.mergeSort (fun a b => charListLe (sort_key a).data (sort_key b).data)

/-- What main writes and returns after the rows are sorted. -/
structure EmitResult where
  stdout_rows : List (List String)
  stderr_msg : Option String
  exit_code : Nat
  deriving Repr

/-- The header/row check followed by csv emission: when some row's field
count differs from the header's, report the mismatch on stderr and return 1
without writing anything; otherwise write the header and all rows and
return os.EX_OK. -/
def emit_csv (results : List (List String)) : EmitResult :=
  if results.any (fun result => !(headers.length == result.length)) then
    ⟨[], some "CSV header/row mismatch", 1⟩
  else
    ⟨headers :: results, none, 0⟩

/-- The whole process-mode pipeline after the output files are selected:
map process_output over the files, sort, check, emit. -/
def process_mode (files : List JVal) : Except PyErr EmitResult := do
  let results ← processBatch files
  pure (emit_csv (sortResults results))

/-! ### The clone-ensuring prefix of analyze_repository -/

inductive CloneAction where
  | skipClone
  | doClone
  deriving DecidableEq, Repr

/-- Lines 203-209 of evaluate.py as a function of whether the target
directory exists: target_abs = target_dir.resolve(strict=True) raises
FileNotFoundError when the path does not exist, and only afterwards does
the code test target_dir.exists() and clone when it does not. -/
def ensure_clone (target_dir_exists : Bool) : Except PyErr CloneAction := do
  if !target_dir_exists then
    throw PyErr.fileNotFoundError
  if !target_dir_exists then
    pure CloneAction.doClone
  else
    pure CloneAction.skipClone

/-! ### The --repos filters in main -/

/-- One (language, framework, repository) triple of the harness registry. -/
structure HarnessEntry where
  language : String
  framework : String
  repository : String
  deriving DecidableEq, Repr

/-- The analyze-mode selection: the registry comprehension keeps exactly the
triples whose repository URL passes the filter; an absent or empty --repos
list (Python falsiness) keeps everything. The nested loops flatten the
registry in order, and the condition only inspects the repository URL. -/
def analyzeSelection (repos : List String) (entries : List HarnessEntry) : List HarnessEntry :=
  entries.filter (fun e => repos.isEmpty || repos.any (fun repo => pyInStr repo e.repository))

/-- A value of pathlib.Path produced by output_dir.glob("*.json"); its
filename is the final component. -/
structure OutputPath where
  name : String
  deriving DecidableEq, Repr

/-- Python membership test repo in output where output is a pathlib.Path:
Path defines neither containment nor iteration, so the interpreter raises
TypeError (argument of type PosixPath is not iterable). -/
def pyInPath (_sub : String) (_p : OutputPath) : Except PyErr Bool :=
  .error .typeError

/-- any(repo in output for repo in args.repos): any() consumes the generator
until a true item; each item evaluates repo in output. -/
def anyRepoMatches (repos : List String) (output : OutputPath) : Except PyErr Bool :=
  match repos with
  | [] => .ok false
  | repo :: rest => do
    let b ← pyInPath repo output
    if b then pure true else anyRepoMatches rest output

/-- The process-mode list comprehension that filters the globbed output
files when --repos was given. -/
def processSelection (repos : List String) : List OutputPath → Except PyErr (List OutputPath)
  | [] => .ok []
  | output :: rest => do
    let keep ← anyRepoMatches repos output
    let tail ← processSelection repos rest
    pure (if keep then output :: tail else tail)

/-- The process-mode file selection: the comprehension only runs when
args.repos is truthy (a non-empty list). -/
def processOutputs (repos : List String) (outputs : List OutputPath) :
    Except PyErr (List OutputPath) :=
  if repos.isEmpty then .ok outputs else processSelection repos outputs

/-! ### Well-formed Analysis Records

The analyzer writes records of this shape: every field present, language,
framework, repository and hash strings, tokei a per-language table of
integer counts, semgrep results a list of findings each carrying a string
check_id and a metavariable table whose entries bind a string
abstract_content. The typed structures below generate exactly such records;
the theorems quantify over them. -/

/-- One bound metavariable of a finding: its name and the literal text it
captured (semgrep's abstract_content). -/
structure RoleBinding where
  name : String
  abstract_content : String
  deriving DecidableEq, Repr

/-- One semgrep finding: the rule identifier and the bound metavariables. -/
structure Finding where
  check_id : String
  metavars : List RoleBinding
  deriving DecidableEq, Repr

/-- The JSON encoding of a finding as semgrep emits it (the fields the
processor reads). -/
def Finding.toJVal (f : Finding) : JVal :=
  .jobj [("check_id", .jstr f.check_id),
         ("extra", .jobj [("metavars",
            .jobj (f.metavars.map (fun b =>
              (b.name, JVal.jobj [("abstract_content", .jstr b.abstract_content)]))))])]

/-- One language's line statistics in the tokei table. -/
structure TokeiEntry where
  language : String
  blanks : Int
  code : Int
  comments : Int
  deriving DecidableEq, Repr

def TokeiEntry.toPair (t : TokeiEntry) : String × JVal :=
  (t.language,
   .jobj [("blanks", .jint t.blanks), ("code", .jint t.code),
          ("comments", .jint t.comments)])

/-- A well-formed Analysis Record as written by analyze_repository. -/
structure Record where
  language : String
  framework : String
  repository : String
  hash : String
  tokei : List TokeiEntry
  results : List Finding
  runtime : Int
  deriving DecidableEq, Repr

/-- The persisted JSON of an Analysis Record (the output dict written at the
end of analyze_repository). -/
def Record.toJVal (r : Record) : JVal :=
  .jobj [("language", .jstr r.language),
         ("framework", .jstr r.framework),
         ("repository", .jstr r.repository),
         ("hash", .jstr r.hash),
         ("tokei", .jobj (r.tokei.map TokeiEntry.toPair)),
         ("semgrep", .jobj [("results", .jarr (r.results.map Finding.toJVal))]),
         ("runtime", .jint r.runtime)]

/-! ### Spec-side descriptions of the derived metrics -/

/-- The languages whose tokei statistics are summed for a record. -/
def pyLanguages (language : String) : List String :=
  if language = JS_TS_LANGUAGE then ["JavaScript", "TypeScript"] else [language]

/-- The tokei entry a record holds for a language, if any. -/
def lookupTokei (r : Record) (l : String) : Option TokeiEntry :=
  r.tokei.find? (fun t => t.language == l)

/-- Contribution of one language to the line-count sum: the three tokei
counters of its entry. -/
def langLoc (r : Record) (l : String) : Int :=
  match lookupTokei r l with
  | some t => t.blanks + (t.code + (t.comments + 0))
  | none => 0

/-- The total line count of a record, summed per contributing language. -/
def specLoc (r : Record) : Int :=
  (pyLanguages r.language).foldr (fun l acc => langLoc r l + acc) 0

/-- The number of findings whose check_id contains the marker substring. -/
def specCount (r : Record) (marker : String) : Nat :=
  r.results.countP (fun f => pyInStr marker f.check_id)

/-- The value a finding binds for a metavariable, if it binds it. -/
def boundRole (f : Finding) (mv : String) : Option String :=
  (f.metavars.find? (fun b => mv == b.name)).map (fun b => b.abstract_content)

/-- All literal text values bound to a designated role metavariable, finding
by finding, duplicates included. -/
def specRoles (r : Record) : List String :=
  (r.results.map (fun f => ROLE_METAVARIABLES.filterMap (boundRole f))).flatten

/-- The number of distinct literal text values bound to a designated role
metavariable across the record's findings. -/
def specRoleCount (r : Record) : Nat := (specRoles r).toFinset.card

/-- The metrics row a well-formed record should produce, per the spec. -/
def specRow (r : Record) (org repo : String) : List String :=
  [org ++ "/" ++ repo, r.hash.take SHORT_HASH_LEN, r.framework, r.language,
   toString (specLoc r), toString r.runtime,
   toString (specCount r "-route" : Int),
   toString (specCount r "-authenticated" : Int),
   toString (specCount r "-unauthenticated" : Int),
   toString (specCount r "-authorized" : Int),
   toString (specCount r "-unauthorized" : Int),
   toString (specRoleCount r)]

/-! ### The worked example record of the spec -/

/-- The spec's worked example: repository https://github.com/a/b, framework
"flask", language "Python", two findings with check_ids "flask-route-get"
and "flask-authenticated-route" binding no role metavariables. -/
def exampleRecord : Record :=
  { language := "Python"
    framework := "flask"
    repository := "https://github.com/a/b"
    hash := "0123456789abcdef0123456789abcdef01234567"
    tokei := [⟨"Python", 10, 100, 20⟩]
    results := [⟨"flask-route-get", []⟩, ⟨"flask-authenticated-route", []⟩]
    runtime := 5 }

/-! ### Reduction lemmas for the Except monad and record field access -/

theorem except_bind_ok {ε α β : Type} (a : α) (f : α → Except ε β) :
    (Bind.bind (Except.ok a) f) = f a := rfl

theorem except_bind_err {ε α β : Type} (e : ε) (f : α → Except ε β) :
    (Bind.bind (Except.error e : Except ε α) f) = Except.error e := rfl

theorem except_pure {ε α : Type} (a : α) : (pure a : Except ε α) = Except.ok a := rfl

theorem except_bind_ok_inv {ε α β : Type} {x : Except ε α} {f : α → Except ε β} {b : β}
    (h : Bind.bind x f = Except.ok b) : ∃ a, x = Except.ok a ∧ f a = Except.ok b := by
  cases x with
  | ok a => exact ⟨a, rfl, h⟩
  | error e => exact absurd h (by simp [except_bind_err])

theorem record_getKey_language (r : Record) :
    r.toJVal.getKey "language" = .ok (.jstr r.language) := rfl

theorem record_getKey_framework (r : Record) :
    r.toJVal.getKey "framework" = .ok (.jstr r.framework) := rfl

theorem record_getKey_repository (r : Record) :
    r.toJVal.getKey "repository" = .ok (.jstr r.repository) := rfl

theorem record_getKey_hash (r : Record) :
    r.toJVal.getKey "hash" = .ok (.jstr r.hash) := rfl

theorem record_getKey_tokei (r : Record) :
    r.toJVal.getKey "tokei" = .ok (.jobj (r.tokei.map TokeiEntry.toPair)) := rfl

theorem record_getKey_semgrep (r : Record) :
    r.toJVal.getKey "semgrep" =
      .ok (.jobj [("results", .jarr (r.results.map Finding.toJVal))]) := rfl

theorem record_getKey_runtime (r : Record) :
    r.toJVal.getKey "runtime" = .ok (.jint r.runtime) := rfl

theorem record_results (r : Record) :
    (JVal.jobj [("results", .jarr (r.results.map Finding.toJVal))]).getKey "results" =
      .ok (.jarr (r.results.map Finding.toJVal)) := rfl

theorem finding_getKey_check_id (f : Finding) :
    f.toJVal.getKey "check_id" = .ok (.jstr f.check_id) := rfl

theorem finding_getKey_extra (f : Finding) :
    f.toJVal.getKey "extra" =
      .ok (.jobj [("metavars",
        .jobj (f.metavars.map (fun b =>
          (b.name, JVal.jobj [("abstract_content", .jstr b.abstract_content)]))))]) := rfl

/-! ### Computing process_output on a well-formed record -/

theorem lookup_tokei_map (ts : List TokeiEntry) (l : String) :
    List.lookup l (ts.map TokeiEntry.toPair) =
      (ts.find? (fun t => t.language == l)).map (fun t => t.toPair.2) := by
  induction ts with
  | nil => rfl
  | cons t ts ih =>
    by_cases h : l = t.language
    · subst h; simp [List.lookup, TokeiEntry.toPair]
    · have h1 : (l == t.language) = false := beq_eq_false_iff_ne.mpr h
      have h2 : (t.language == l) = false := beq_eq_false_iff_ne.mpr (Ne.symm h)
      simp [List.lookup, TokeiEntry.toPair, h1, h2, ih]

theorem sumLocKeys_entry (r : Record) (l : String) (t : TokeiEntry)
    (h : lookupTokei r l = some t) :
    sumLocKeys r.toJVal (.jstr l) ["blanks", "code", "comments"] =
      .ok (t.blanks + (t.code + (t.comments + 0))) := by
  have hlook : List.lookup l (r.tokei.map TokeiEntry.toPair) = some t.toPair.2 := by
    rw [lookup_tokei_map]
    simpa [lookupTokei] using congrArg (Option.map (fun t => t.toPair.2)) h
  have e2 : (JVal.jobj (r.tokei.map TokeiEntry.toPair)).getKeyV (.jstr l) =
      .ok t.toPair.2 := by
    simp [JVal.getKeyV, JVal.getKey, hlook]
  have eb : t.toPair.2.getKey "blanks" = .ok (.jint t.blanks) := rfl
  have ec : t.toPair.2.getKey "code" = .ok (.jint t.code) := rfl
  have em : t.toPair.2.getKey "comments" = .ok (.jint t.comments) := rfl
  simp only [sumLocKeys, record_getKey_tokei, except_bind_ok, e2, eb, ec, em,
             JVal.asInt, except_pure]

theorem sumLoc_record (r : Record) (ls : List String)
    (h : ∀ l ∈ ls, (lookupTokei r l).isSome) :
    sumLoc r.toJVal (ls.map JVal.jstr) =
      .ok (ls.foldr (fun l acc => langLoc r l + acc) 0) := by
  induction ls with
  | nil => rfl
  | cons l ls ih =>
    obtain ⟨t, ht⟩ := Option.isSome_iff_exists.mp (h l (by simp))
    simp only [List.map_cons, sumLoc, sumLocKeys_entry r l t ht, except_bind_ok]
    rw [ih (fun x hx => h x (by simp [hx]))]
    simp [except_bind_ok, except_pure, langLoc, ht, List.foldr_cons]

theorem sumMarker_findings (m : String) (fs : List Finding) :
    sumMarker m (fs.map Finding.toJVal) =
      .ok ((fs.countP (fun f => pyInStr m f.check_id) : Int)) := by
  induction fs with
  | nil => rfl
  | cons f fs ih =>
    simp only [List.map_cons, sumMarker, finding_getKey_check_id, except_bind_ok, ih,
               except_pure, List.countP_cons]
    by_cases h : pyInStr m f.check_id <;> simp [h] <;> omega

theorem lookup_metavars_map (bs : List RoleBinding) (mv : String) :
    List.lookup mv (bs.map (fun b =>
        (b.name, JVal.jobj [("abstract_content", .jstr b.abstract_content)]))) =
      (bs.find? (fun b => mv == b.name)).map
        (fun b => JVal.jobj [("abstract_content", .jstr b.abstract_content)]) := by
  induction bs with
  | nil => rfl
  | cons b bs ih =>
    by_cases h : mv = b.name
    · subst h; simp [List.lookup]
    · have h1 : (mv == b.name) = false := beq_eq_false_iff_ne.mpr h
      simp [List.lookup, h1, ih]

theorem any_eq_isSome_find? {α : Type} (p : α → Bool) (l : List α) :
    l.any p = (l.find? p).isSome := by
  induction l with
  | nil => rfl
  | cons a l ih => cases h : p a <;> simp [List.find?, h, ih]

theorem any_metavars_map (bs : List RoleBinding) (mv : String) :
    ((bs.map (fun b =>
        (b.name, JVal.jobj [("abstract_content", JVal.jstr b.abstract_content)]))).any
      fun p => mv == p.1) = (bs.find? (fun b => mv == b.name)).isSome := by
  induction bs with
  | nil => rfl
  | cons b bs ih => cases h : (mv == b.name) <;> simp [List.find?, h, ih]

theorem roleItemsOf_finding (f : Finding) (mvs : List String) :
    roleItemsOf f.toJVal mvs = .ok ((mvs.filterMap (boundRole f)).map Sum.inl) := by
  induction mvs with
  | nil => rfl
  | cons mv mvs ih =>
    have emeta : (JVal.jobj [("metavars",
        .jobj (f.metavars.map (fun b =>
          (b.name, JVal.jobj [("abstract_content", .jstr b.abstract_content)]))))]).getKey
            "metavars" =
        .ok (.jobj (f.metavars.map (fun b =>
          (b.name, JVal.jobj [("abstract_content", .jstr b.abstract_content)])))) := rfl
    simp only [roleItemsOf, finding_getKey_extra, except_bind_ok, emeta, JVal.hasKey,
               any_metavars_map]
    cases hfind : f.metavars.find? (fun b => mv == b.name) with
    | none =>
      simp only [hfind, Option.isSome_none, Bool.false_eq_true, if_false, except_bind_ok, ih,
                 List.filterMap_cons]
      simp [boundRole, hfind, except_pure]
    | some b =>
      have elook : List.lookup mv (f.metavars.map (fun b =>
          (b.name, JVal.jobj [("abstract_content", JVal.jstr b.abstract_content)]))) =
          some (JVal.jobj [("abstract_content", JVal.jstr b.abstract_content)]) := by
        rw [lookup_metavars_map, hfind]; rfl
      simp only [hfind, Option.isSome_some, if_true, except_bind_ok, JVal.getKey, elook,
                 ih, List.filterMap_cons]
      simp [boundRole, hfind, List.lookup, JVal.hashable, Except.map, except_pure,
            except_bind_ok]

theorem roleItems_findings (fs : List Finding) :
    roleItems (fs.map Finding.toJVal) =
      .ok (((fs.map (fun f => ROLE_METAVARIABLES.filterMap (boundRole f))).flatten).map
        Sum.inl) := by
  induction fs with
  | nil => rfl
  | cons f fs ih =>
    simp [roleItems, roleItemsOf_finding, ih, except_bind_ok, except_pure]

theorem dedup_length_map_inl (l : List String) :
    ((l.map (Sum.inl : String → String ⊕ Int)).dedup).length = l.toFinset.card := by
  rw [List.dedup_map_of_injective Sum.inl_injective]
  simp [List.card_toFinset]

/-- The central refinement lemma: on every well-formed Analysis Record whose
repository URL parses into an org/repo pair and whose tokei table covers the
record's languages, process_output succeeds and returns exactly the row
described field by field by specRow. -/
theorem process_output_record (r : Record) (org repo : String)
    (hurl : get_org_repo r.repository = .ok (org, repo))
    (htok : ∀ l ∈ pyLanguages r.language, (lookupTokei r l).isSome) :
    process_output r.toJVal = .ok (specRow r org repo) := by
  have hlang : (if (JVal.jstr r.language).eqStr JS_TS_LANGUAGE
      then [JVal.jstr "JavaScript", JVal.jstr "TypeScript"]
      else [JVal.jstr r.language]) = (pyLanguages r.language).map JVal.jstr := by
    by_cases h : r.language = JS_TS_LANGUAGE <;> simp [JVal.eqStr, pyLanguages, h]
  simp only [process_output, record_getKey_language, except_bind_ok, hlang,
             sumLoc_record r _ htok, record_getKey_semgrep, record_results, JVal.asArr,
             sumMarker_findings, roleItems_findings, record_getKey_repository, JVal.asStr,
             hurl, record_getKey_hash, record_getKey_framework, record_getKey_runtime,
             except_pure, dedup_length_map_inl]
  simp [specRow, specLoc, specCount, specRoleCount, specRoles, JVal.pyStr]

/-! ### Properties of the sort comparison and the batch -/

theorem charListLe_total : ∀ (a b : List Char), (charListLe a b || charListLe b a) = true
  | [], _ => by simp [charListLe]
  | _ :: _, [] => by simp [charListLe]
  | a :: as, b :: bs => by
    by_cases h1 : a < b
    · simp [charListLe, h1]
    · by_cases h2 : b < a
      · simp [charListLe, h1, h2]
      · simp [charListLe, h1, h2, charListLe_total as bs]

theorem charListLe_trans :
    ∀ (a b c : List Char), charListLe a b = true → charListLe b c = true →
      charListLe a c = true
  | [], _, _ => by simp [charListLe]
  | _ :: _, [], _ => by simp [charListLe]
  | _ :: _, _ :: _, [] => by simp [charListLe]
  | a :: as, b :: bs, c :: cs => by
    intro h1 h2
    simp only [charListLe] at h1 h2 ⊢
    by_cases hab : a < b
    · by_cases hbc : b < c
      · simp [lt_trans hab hbc]
      · by_cases hcb : c < b
        · simp [hbc, hcb] at h2
        · have hbceq : b = c := le_antisymm (not_lt.mp hcb) (not_lt.mp hbc)
          subst hbceq
          simp [hab]
    · by_cases hba : b < a
      · simp [hab, hba] at h1
      · have habeq : a = b := le_antisymm (not_lt.mp hba) (not_lt.mp hab)
        subst habeq
        by_cases hac : a < c
        · simp [hac]
        · by_cases hca : c < a
          · simp [hac, hca] at h2
          · simp [hab, hba] at h1
            simp [hac, hca] at h2 ⊢
            exact charListLe_trans as bs cs h1 h2

/-- Every successfully produced metrics row is the twelve-entry list built at
the end of process_output. -/
theorem process_output_length {data : JVal} {row : List String}
    (h : process_output data = .ok row) : row.length = 12 := by
  rw [process_output] at h
  obtain ⟨_, _, h⟩ := except_bind_ok_inv h
  obtain ⟨_, _, h⟩ := except_bind_ok_inv h
  obtain ⟨_, _, h⟩ := except_bind_ok_inv h
  obtain ⟨_, _, h⟩ := except_bind_ok_inv h
  obtain ⟨_, _, h⟩ := except_bind_ok_inv h
  obtain ⟨_, _, h⟩ := except_bind_ok_inv h
  obtain ⟨_, _, h⟩ := except_bind_ok_inv h
  obtain ⟨_, _, h⟩ := except_bind_ok_inv h
  obtain ⟨_, _, h⟩ := except_bind_ok_inv h
  obtain ⟨_, _, h⟩ := except_bind_ok_inv h
  obtain ⟨_, _, h⟩ := except_bind_ok_inv h
  obtain ⟨_, _, h⟩ := except_bind_ok_inv h
  obtain ⟨_, _, h⟩ := except_bind_ok_inv h
  obtain ⟨_, _, h⟩ := except_bind_ok_inv h
  obtain ⟨_, _, h⟩ := except_bind_ok_inv h
  obtain ⟨_, _, h⟩ := except_bind_ok_inv h
  obtain ⟨_, _, h⟩ := except_bind_ok_inv h
  obtain ⟨_, _, h⟩ := except_bind_ok_inv h
  rw [except_pure] at h
  injection h with h
  rw [← h]
  rfl

theorem processBatch_length {files : List JVal} {rows : List (List String)}
    (h : processBatch files = .ok rows) : rows.length = files.length := by
  induction files generalizing rows with
  | nil =>
    rw [processBatch] at h
    injection h with h
    rw [← h]
    rfl
  | cons d fs ih =>
    rw [processBatch] at h
    obtain ⟨row, h1, h⟩ := except_bind_ok_inv h
    obtain ⟨tail, h2, h⟩ := except_bind_ok_inv h
    rw [except_pure] at h
    injection h with h
    rw [← h]
    simp [ih h2]

theorem processBatch_rows {files : List JVal} {rows : List (List String)}
    (h : processBatch files = .ok rows) :
    ∀ r ∈ rows, ∃ d ∈ files, process_output d = .ok r := by
  induction files generalizing rows with
  | nil =>
    rw [processBatch] at h
    injection h with h
    rw [← h]
    simp
  | cons d fs ih =>
    rw [processBatch] at h
    obtain ⟨row, h1, h⟩ := except_bind_ok_inv h
    obtain ⟨tail, h2, h⟩ := except_bind_ok_inv h
    rw [except_pure] at h
    injection h with h
    rw [← h]
    intro r hr
    rcases List.mem_cons.mp hr with hr | hr
    · exact ⟨d, by simp, hr ▸ h1⟩
    · obtain ⟨d', hd', hout⟩ := ih h2 r hr
      exact ⟨d', by simp [hd'], hout⟩

theorem processBatch_abort {bad : JVal} {e : PyErr}
    (hbad : process_output bad = .error e) :
    ∀ files, bad ∈ files → ∀ rows, processBatch files ≠ .ok rows := by
  intro files
  induction files with
  | nil => intro h; cases h
  | cons d fs ih =>
    intro hmem rows h
    rw [processBatch] at h
    obtain ⟨row, h1, h⟩ := except_bind_ok_inv h
    obtain ⟨tail, h2, h⟩ := except_bind_ok_inv h
    rcases List.mem_cons.mp hmem with hd | hd
    · rw [← hd, hbad] at h1
      cases h1
    · exact ih hd tail h2

/-! ### The harness registry and analyze-mode flattening -/

/-- The HARNESS registry of evaluate.py: language to framework to ordered
repository URLs (dict literals iterate in insertion order). -/
def HARNESS : List (String × List (String × List String)) :=
  [("Python",
    [("django",
      ["https://github.com/DefectDojo/django-DefectDojo",
       "https://github.com/saleor/saleor",
       "https://github.com/wagtail/wagtail"]),
     ("django-rest-framework",
      ["https://github.com/DefectDojo/django-DefectDojo"]),
     ("flask",
      ["https://github.com/apache/airflow",
       "https://github.com/flaskbb/flaskbb",
       "https://github.com/getredash/redash"]),
     ("sanic",
      ["https://github.com/howie6879/owllook",
       "https://github.com/jacebrowning/memegen"])]),
   ("PHP",
    [("laravel",
      ["https://github.com/monicahq/monica",
       "https://github.com/koel/koel",
       "https://github.com/BookStackApp/BookStack"]),
     ("symfony",
      ["https://github.com/Sylius/Sylius",
       "https://github.com/sulu/sulu",
       "https://github.com/bolt/core"]),
     ("cakephp",
      ["https://github.com/passbolt/passbolt_api",
       "https://github.com/croogo/croogo"])]),
   ("Ruby",
    [("rails",
      ["https://github.com/discourse/discourse",
       "https://github.com/gitlabhq/gitlabhq",
       "https://github.com/diaspora/diaspora"]),
     ("grape",
      ["https://github.com/locomotivecms/engine",
       "https://github.com/gitlabhq/gitlabhq",
       "https://github.com/Mapotempo/optimizer-api"])]),
   ("Java",
    [("spring",
      ["https://github.com/thingsboard/thingsboard",
       "https://github.com/macrozheng/mall",
       "https://github.com/sqshq/piggymetrics"]),
     ("jax-rs",
      ["https://github.com/DependencyTrack/dependency-track",
       "https://github.com/eclipse/kura",
       "https://github.com/eclipse/kapua"])]),
   ("Go",
    [("gorilla",
      ["https://github.com/portainer/portainer",
       "https://github.com/google/exposure-notifications-server"]),
     ("gin",
      ["https://github.com/photoprism/photoprism",
       "https://github.com/go-admin-team/go-admin",
       "https://github.com/gotify/server"]),
     ("chi",
      ["https://github.com/dhax/go-base",
       "https://github.com/cloudfoundry/korifi"])]),
   (JS_TS_LANGUAGE,
    [("express",
      ["https://github.com/payloadcms/payload",
       "https://github.com/directus/directus"]),
     ("react",
      ["https://github.com/elastic/kibana",
       "https://github.com/mattermost/mattermost-webapp",
       "https://github.com/apache/superset"]),
     ("angular",
      ["https://github.com/Chocobozzz/PeerTube",
       "https://github.com/bitwarden/clients",
       "https://github.com/ever-co/ever-demand"])])]

/-- The flattened (language, framework, repository) triples of the
analyze-mode comprehension, in nested-loop order. -/
def harnessEntries : List HarnessEntry :=
  (HARNESS.map (fun lf =>
    (lf.2.map (fun fr =>
      fr.2.map (fun repository => HarnessEntry.mk lf.1 fr.1 repository))).flatten)).flatten

/-! ### Spec-side repository short name -/

/-- Modelled from the spec: the last two path segments of the repository
URL, joined with "/" (segments are the non-empty pieces of the URL path). -/
def lastTwoSegments (url : String) : Option String :=
  match (((splitSlash (urlparse_path url).data).map String.mk).filter
      (fun s => !(s == ""))).reverse with
  | b :: a :: _ => some (a ++ "/" ++ b)
  | _ => none

/-! ### Concrete rows and records used by the claims -/

/-- A metrics row for the (Go, gin) harness entry. -/
def ginRow : List String :=
  ["photoprism/photoprism", "0000000", "gin", "Go", "10", "1",
   "0", "0", "0", "0", "0", "0"]

/-- A metrics row for the (Go, chi) harness entry. -/
def chiRow : List String :=
  ["dhax/go-base", "0000000", "chi", "Go", "10", "1",
   "0", "0", "0", "0", "0", "0"]

/-- The record-level fields process_output reads from every record. -/
def expectedFields : List String :=
  ["language", "framework", "repository", "hash", "tokei", "semgrep", "runtime"]

/-- A finding that lacks the "extra" metavariable container entirely (and
binds no role metavariable). -/
def findingNoExtra : JVal := .jobj [("check_id", .jstr "flask-route-get")]

/-- A record identical to the worked example except that its second finding
is missing the metavariable container. -/
def recordWithBadFinding : JVal :=
  .jobj [("language", .jstr "Python"),
         ("framework", .jstr "flask"),
         ("repository", .jstr "https://github.com/a/b"),
         ("hash", .jstr "0123456789abcdef0123456789abcdef01234567"),
         ("tokei", .jobj [("Python",
            .jobj [("blanks", .jint 10), ("code", .jint 100), ("comments", .jint 20)])]),
         ("semgrep", .jobj [("results",
            .jarr [Finding.toJVal ⟨"flask-route-get", []⟩, findingNoExtra])]),
         ("runtime", .jint 5)]

/-! ### The claims -/

/-- C3: processing the spec's worked example — repository
https://github.com/a/b, framework "flask", language "Python", findings
"flask-route-get" and "flask-authenticated-route" binding no role
metavariables — yields the metrics row with repository name "a/b", short
hash, route count 2, authenticated count 1, unauthenticated, authorized and
unauthorized counts 0, and role count 0. -/
theorem C3_worked_example :
    process_output exampleRecord.toJVal =
      .ok ["a/b", "0123456", "flask", "Python", "130", "5",
           "2", "1", "0", "0", "0", "0"] := rfl

/-- C4: the claim says a missing target directory leads to a clone followed
by analysis, but analyze_repository calls target_dir.resolve(strict=True)
before the existence check, so a missing target directory raises
FileNotFoundError instead; the clone branch can never run (for no state of
the directory does ensure_clone report a clone). An existing directory
skips cloning as claimed. -/
theorem C4_resolve_before_clone_bug :
    ensure_clone false = .error .fileNotFoundError
      ∧ ensure_clone true = .ok .skipClone
      ∧ ∀ e, ensure_clone e ≠ .ok .doClone := by
  refine ⟨rfl, rfl, ?_⟩
  intro e h
  cases e <;> cases h

/-- C1: on every well-formed Analysis Record, the five category fields of
the metrics row are the decimal renderings of the number of findings whose
check_id contains the corresponding marker substring, and each count is at
most the total number of findings. -/
theorem C1_category_counts (r : Record) (org repo : String)
    (hurl : get_org_repo r.repository = .ok (org, repo))
    (htok : ∀ l ∈ pyLanguages r.language, (lookupTokei r l).isSome) :
    ∃ row, process_output r.toJVal = .ok row
      ∧ row.get? 6 = some (toString (specCount r "-route" : Int))
      ∧ row.get? 7 = some (toString (specCount r "-authenticated" : Int))
      ∧ row.get? 8 = some (toString (specCount r "-unauthenticated" : Int))
      ∧ row.get? 9 = some (toString (specCount r "-authorized" : Int))
      ∧ row.get? 10 = some (toString (specCount r "-unauthorized" : Int))
      ∧ specCount r "-route" ≤ r.results.length
      ∧ specCount r "-authenticated" ≤ r.results.length
      ∧ specCount r "-unauthenticated" ≤ r.results.length
      ∧ specCount r "-authorized" ≤ r.results.length
      ∧ specCount r "-unauthorized" ≤ r.results.length := by
  refine ⟨specRow r org repo, process_output_record r org repo hurl htok,
    rfl, rfl, rfl, rfl, rfl, ?_, ?_, ?_, ?_, ?_⟩ <;>
    exact List.countP_le_length _

/-- C1 witness: the hypotheses hold and the conclusion follows at the worked
example record. -/
theorem C1_category_counts_witness :
    get_org_repo exampleRecord.repository = .ok ("a", "b")
      ∧ (∀ l ∈ pyLanguages exampleRecord.language, (lookupTokei exampleRecord l).isSome)
      ∧ (∃ row, process_output exampleRecord.toJVal = .ok row
          ∧ row.get? 6 = some (toString (specCount exampleRecord "-route" : Int))
          ∧ row.get? 7 = some (toString (specCount exampleRecord "-authenticated" : Int))
          ∧ row.get? 8 = some (toString (specCount exampleRecord "-unauthenticated" : Int))
          ∧ row.get? 9 = some (toString (specCount exampleRecord "-authorized" : Int))
          ∧ row.get? 10 = some (toString (specCount exampleRecord "-unauthorized" : Int))
          ∧ specCount exampleRecord "-route" ≤ exampleRecord.results.length
          ∧ specCount exampleRecord "-authenticated" ≤ exampleRecord.results.length
          ∧ specCount exampleRecord "-unauthenticated" ≤ exampleRecord.results.length
          ∧ specCount exampleRecord "-authorized" ≤ exampleRecord.results.length
          ∧ specCount exampleRecord "-unauthorized" ≤ exampleRecord.results.length) :=
  ⟨rfl, by decide, C1_category_counts exampleRecord "a" "b" rfl (by decide)⟩

/-- C2: on every well-formed Analysis Record the role field of the metrics
row is the cardinality of the set of distinct literal text values bound to
either designated role metavariable across all findings; a value is in that
set exactly when some finding binds it through one of the two metavariables,
so repeated bindings (same literal in both variables of one finding, or in
several findings) contribute one element. -/
theorem C2_role_count (r : Record) (org repo : String)
    (hurl : get_org_repo r.repository = .ok (org, repo))
    (htok : ∀ l ∈ pyLanguages r.language, (lookupTokei r l).isSome) :
    ∃ row, process_output r.toJVal = .ok row
      ∧ row.get? 11 = some (toString (specRoles r).toFinset.card)
      ∧ (∀ v : String, v ∈ (specRoles r).toFinset ↔
          ∃ f ∈ r.results, ∃ mv ∈ ROLE_METAVARIABLES, boundRole f mv = some v) := by
  refine ⟨specRow r org repo, process_output_record r org repo hurl htok, rfl, ?_⟩
  intro v
  simp only [specRoles, List.mem_toFinset, List.mem_flatten, List.mem_map]
  constructor
  · rintro ⟨l, ⟨f, hf, rfl⟩, hb⟩
    obtain ⟨mv, hmv, hbb⟩ := List.mem_filterMap.mp hb
    exact ⟨f, hf, mv, hmv, hbb⟩
  · rintro ⟨f, hf, mv, hmv, hb⟩
    exact ⟨_, ⟨f, hf, rfl⟩, List.mem_filterMap.mpr ⟨mv, hmv, hb⟩⟩

/-- A record whose two findings bind the same role literal three times over
(both metavariables in the first finding, one in the second). -/
def repeatedRoleRecord : Record :=
  { language := "Python"
    framework := "flask"
    repository := "https://github.com/a/b"
    hash := "0123456789abcdef0123456789abcdef01234567"
    tokei := [⟨"Python", 10, 100, 20⟩]
    results := [⟨"flask-route-get", [⟨"$AUTHZ", "admin"⟩, ⟨"$...AUTHZ", "admin"⟩]⟩,
                ⟨"flask-authenticated-route", [⟨"$AUTHZ", "admin"⟩]⟩]
    runtime := 5 }

/-- C2 witness: the hypotheses hold and the conclusion follows at a record
binding the same literal through both metavariables and in two findings;
its role count is 1. -/
theorem C2_role_count_witness :
    get_org_repo repeatedRoleRecord.repository = .ok ("a", "b")
      ∧ (∀ l ∈ pyLanguages repeatedRoleRecord.language,
          (lookupTokei repeatedRoleRecord l).isSome)
      ∧ (specRoles repeatedRoleRecord).toFinset.card = 1
      ∧ process_output repeatedRoleRecord.toJVal =
          .ok ["a/b", "0123456", "flask", "Python", "130", "5",
               "2", "1", "0", "0", "0", "1"]
      ∧ (∃ row, process_output repeatedRoleRecord.toJVal = .ok row
          ∧ row.get? 11 = some (toString (specRoles repeatedRoleRecord).toFinset.card)
          ∧ (∀ v : String, v ∈ (specRoles repeatedRoleRecord).toFinset ↔
              ∃ f ∈ repeatedRoleRecord.results, ∃ mv ∈ ROLE_METAVARIABLES,
                boundRole f mv = some v)) :=
  ⟨rfl, by decide, by decide, rfl,
   C2_role_count repeatedRoleRecord "a" "b" rfl (by decide)⟩

/-- C6: on every well-formed Analysis Record whose repository URL path
consists of two non-empty segments (the shape of every registry URL,
scheme://host/org/repo), the metrics row's first field is the last two path
segments joined with "/" and its second field is the first seven characters
of the record's hash. -/
theorem C6_short_name_and_hash (r : Record) (org repo : String)
    (hsplit : splitSlash (urlparse_path r.repository).data = [[], org.data, repo.data])
    (horg : org ≠ "") (hrepo : repo ≠ "")
    (htok : ∀ l ∈ pyLanguages r.language, (lookupTokei r l).isSome) :
    ∃ row, process_output r.toJVal = .ok row
      ∧ row.get? 0 = lastTwoSegments r.repository
      ∧ row.get? 0 = some (org ++ "/" ++ repo)
      ∧ row.get? 1 = some (r.hash.take 7) := by
  have hurl : get_org_repo r.repository = .ok (org, repo) := by
    rw [get_org_repo, hsplit]
  refine ⟨specRow r org repo, process_output_record r org repo hurl htok, ?_, rfl, rfl⟩
  rw [lastTwoSegments, hsplit]
  have e1 : String.mk org.data = org := rfl
  have e2 : String.mk repo.data = repo := rfl
  simp only [List.map_cons, List.map_nil, e1, e2]
  rw [List.filter_cons, List.filter_cons, List.filter_cons]
  simp [beq_eq_false_iff_ne.mpr horg, beq_eq_false_iff_ne.mpr hrepo, specRow]

/-- C6 witness: the hypotheses hold and the conclusion follows at the worked
example record. -/
theorem C6_short_name_and_hash_witness :
    splitSlash (urlparse_path exampleRecord.repository).data =
        [[], "a".data, "b".data]
      ∧ ("a" : String) ≠ ""
      ∧ ("b" : String) ≠ ""
      ∧ (∀ l ∈ pyLanguages exampleRecord.language, (lookupTokei exampleRecord l).isSome)
      ∧ (∃ row, process_output exampleRecord.toJVal = .ok row
          ∧ row.get? 0 = lastTwoSegments exampleRecord.repository
          ∧ row.get? 0 = some ("a" ++ "/" ++ "b")
          ∧ row.get? 1 = some (exampleRecord.hash.take 7)) :=
  ⟨by decide, by decide, by decide, by decide,
   C6_short_name_and_hash exampleRecord "a" "b" (by decide) (by decide) (by decide)
     (by decide)⟩

/-- C7: the header has twelve fields; when some row's field count differs
from the header's, the emitter reports the mismatch on stderr, writes no
rows at all to stdout, and main returns the non-zero status 1; when every
row matches, the header followed by all data rows is written and the status
is 0 (os.EX_OK). -/
theorem C7_header_row_check :
    headers.length = 12
      ∧ (∀ results : List (List String),
          (∃ row ∈ results, row.length ≠ headers.length) →
            emit_csv results = ⟨[], some "CSV header/row mismatch", 1⟩)
      ∧ (∀ results : List (List String),
          (∀ row ∈ results, row.length = headers.length) →
            emit_csv results = ⟨headers :: results, none, 0⟩) := by
  refine ⟨rfl, ?_, ?_⟩
  · rintro results ⟨row, hmem, hne⟩
    rw [emit_csv, if_pos]
    rw [List.any_eq_true]
    refine ⟨row, hmem, ?_⟩
    simpa using fun h => hne h.symm
  · intro results hall
    rw [emit_csv, if_neg]
    rw [List.any_eq_true]
    rintro ⟨row, hmem, hbad⟩
    simp at hbad
    exact hbad (hall row hmem).symm

/-- C7 witness: a batch containing a one-field row is rejected with status 1
and no output, and a batch of empty rows... rather, an empty batch and a
batch with one full-width row are emitted with status 0. -/
theorem C7_header_row_check_witness :
    (∃ row ∈ [["x"]], List.length row ≠ headers.length)
      ∧ emit_csv [["x"]] = ⟨[], some "CSV header/row mismatch", 1⟩
      ∧ (∀ row ∈ ([] : List (List String)), List.length row = headers.length)
      ∧ emit_csv [] = ⟨[headers], none, 0⟩ :=
  ⟨⟨["x"], by simp, by decide⟩,
   C7_header_row_check.2.1 [["x"]] ⟨["x"], by simp, by decide⟩,
   by simp,
   C7_header_row_check.2.2 [] (by simp)⟩

/-- C8: sorted rows are in non-decreasing order of the single concatenated
key language ++ framework (fields 3 and 2 of the row), and concretely a
(Go, chi) row sorts before a (Go, gin) row because the key "Gochi" compares
below "Gogin". -/
theorem C8_sort_by_concatenated_key :
    (∀ results : List (List String),
        (sortResults results).Pairwise
          (fun a b => charListLe (sort_key a).data (sort_key b).data = true))
      ∧ sort_key chiRow = "Go" ++ "chi"
      ∧ sort_key ginRow = "Go" ++ "gin"
      ∧ charListLe ("Go" ++ "chi").data ("Go" ++ "gin").data = true
      ∧ charListLe ("Go" ++ "gin").data ("Go" ++ "chi").data = false
      ∧ sortResults [ginRow, chiRow] = [chiRow, ginRow] := by
  refine ⟨?_, by decide, by decide, by decide, by decide, ?_⟩
  · intro results
    exact @List.sorted_mergeSort (List String)
      (fun a b => charListLe (sort_key a).data (sort_key b).data)
      (fun a b c hab hbc => charListLe_trans _ _ _ hab hbc)
      (fun a b => charListLe_total _ _)
      results
  · rw [sortResults, List.mergeSort]
    simp [List.splitInTwo, List.splitAt, List.splitAt.go, List.merge]
    decide

/-- C9: a record missing any of the seven record-level fields makes
process_output raise (no default is substituted), as does a finding whose
metavariable container is missing even though it binds no role
metavariable; and one raising record aborts the whole batch: no row list is
produced for any file list containing it. -/
theorem C9_missing_field_aborts :
    (expectedFields.all
        (fun f => !(process_output (exampleRecord.toJVal.removeKey f)).isOk)) = true
      ∧ process_output recordWithBadFinding = .error .keyError
      ∧ (∀ files, recordWithBadFinding ∈ files →
          ∀ rows, processBatch files ≠ .ok rows) :=
  ⟨rfl, rfl, processBatch_abort rfl⟩

/-- C9 witness: a batch holding the worked example record and the record
with the damaged finding produces no row list, in particular not the empty
one. -/
theorem C9_missing_field_aborts_witness :
    recordWithBadFinding ∈ [exampleRecord.toJVal, recordWithBadFinding]
      ∧ processBatch [exampleRecord.toJVal, recordWithBadFinding] ≠ .ok [] :=
  ⟨by simp,
   C9_missing_field_aborts.2.2 [exampleRecord.toJVal, recordWithBadFinding]
     (by simp) []⟩

/-- C10: every row process_output returns has exactly twelve fields — the
header's field count — the row count of a successful batch equals its
record count, and consequently the emitter's mismatch check never fires on
rows produced by process_output: the process-mode pipeline emits the header
and all sorted rows with status 0. -/
theorem C10_row_count_and_width :
    (∀ data row, process_output data = .ok row →
        row.length = 12 ∧ row.length = headers.length)
      ∧ (∀ files rows, processBatch files = .ok rows →
          rows.length = files.length
            ∧ emit_csv (sortResults rows) = ⟨headers :: sortResults rows, none, 0⟩
            ∧ process_mode files = .ok ⟨headers :: sortResults rows, none, 0⟩) := by
  constructor
  · intro data row h
    exact ⟨process_output_length h, process_output_length h⟩
  · intro files rows h
    have hall : ∀ r ∈ sortResults rows, r.length = headers.length := by
      intro r hr
      have hmem : r ∈ rows := List.mem_mergeSort.mp hr
      obtain ⟨d, _, hout⟩ := processBatch_rows h r hmem
      exact process_output_length hout
    have hemit : emit_csv (sortResults rows) = ⟨headers :: sortResults rows, none, 0⟩ := by
      rw [emit_csv, if_neg]
      rw [List.any_eq_true]
      rintro ⟨row, hmem, hbad⟩
      simp at hbad
      exact hbad (hall row hmem).symm
    refine ⟨processBatch_length h, hemit, ?_⟩
    rw [process_mode, h, except_bind_ok, except_pure, hemit]

/-- C10 witness: at the worked example, the single row has width twelve and
the pipeline emits the header plus that row with status 0. -/
theorem C10_row_count_and_width_witness :
    process_output exampleRecord.toJVal =
        .ok ["a/b", "0123456", "flask", "Python", "130", "5",
             "2", "1", "0", "0", "0", "0"]
      ∧ (["a/b", "0123456", "flask", "Python", "130", "5",
          "2", "1", "0", "0", "0", "0"].length = 12
        ∧ ["a/b", "0123456", "flask", "Python", "130", "5",
           "2", "1", "0", "0", "0", "0"].length = headers.length)
      ∧ processBatch [exampleRecord.toJVal] =
          .ok [["a/b", "0123456", "flask", "Python", "130", "5",
                "2", "1", "0", "0", "0", "0"]]
      ∧ ([["a/b", "0123456", "flask", "Python", "130", "5",
           "2", "1", "0", "0", "0", "0"]].length = [exampleRecord.toJVal].length
        ∧ emit_csv (sortResults [["a/b", "0123456", "flask", "Python", "130", "5",
            "2", "1", "0", "0", "0", "0"]]) =
            ⟨headers :: sortResults [["a/b", "0123456", "flask", "Python", "130", "5",
              "2", "1", "0", "0", "0", "0"]], none, 0⟩
        ∧ process_mode [exampleRecord.toJVal] =
            .ok ⟨headers :: sortResults [["a/b", "0123456", "flask", "Python", "130", "5",
              "2", "1", "0", "0", "0", "0"]], none, 0⟩) :=
  ⟨rfl,
   C10_row_count_and_width.1 exampleRecord.toJVal _ rfl,
   rfl,
   C10_row_count_and_width.2 [exampleRecord.toJVal] _ rfl⟩

/-- C5: in analyze mode the comprehension keeps exactly the harness entries
whose repository URL contains one of the --repos substrings (everything when
the flag is absent); but in process mode the filter evaluates repo in output
on a pathlib.Path object, which raises TypeError as soon as the flag is
given and at least one output file exists, instead of filtering by
filename. Without the flag all output files are processed. -/
theorem C5_repos_filter :
    (∀ (repos : List String) (e : HarnessEntry),
        e ∈ analyzeSelection repos harnessEntries ↔
          e ∈ harnessEntries
            ∧ (repos = [] ∨ ∃ s ∈ repos, pyInStr s e.repository = true))
      ∧ analyzeSelection [] harnessEntries = harnessEntries
      ∧ (∀ (s : String) (rest : List String) (o : OutputPath) (os : List OutputPath),
          processOutputs (s :: rest) (o :: os) = .error .typeError)
      ∧ processOutputs ["flask"] [⟨"redash.flask.json"⟩] = .error .typeError
      ∧ (∀ outputs, processOutputs [] outputs = .ok outputs) := by
  refine ⟨?_, ?_, ?_, rfl, fun outputs => rfl⟩
  · intro repos e
    rw [analyzeSelection, List.mem_filter]
    constructor
    · rintro ⟨hmem, hcond⟩
      refine ⟨hmem, ?_⟩
      rcases Bool.or_eq_true_iff.mp hcond with hemp | hany
      · exact Or.inl (List.isEmpty_iff.mp hemp)
      · exact Or.inr (by simpa [List.any_eq_true] using hany)
    · rintro ⟨hmem, hemp | hany⟩
      · exact ⟨hmem, by simp [hemp]⟩
      · refine ⟨hmem, Bool.or_eq_true_iff.mpr (Or.inr ?_)⟩
        simpa [List.any_eq_true] using hany
  · rw [analyzeSelection]
    simp
  · intro s rest o os
    rfl
